import Mathlib

/-!
Shallow embedding of the host-side marshaling layer in `src/lib.rs`:
guest-memory accessors (`memory_slice`, `memory_string`, `get_value`,
`get_value_mut`), the error model (`ApiError`, `ErrorCode`,
`error_display_chain`), the call-logging boundary conversion
(`HostModule::log_call`) and the `start_training` export with its
wasmtime wrapper closure.

Guest linear memory is modelled as a `List Nat` of bytes.  POD types are
represented by their byte size (`ProtocolConfig` has size 0, the
`FutureHandle(u64)` wrapper has size 8).  Machine `usize` arithmetic is
modelled on `Nat` with an explicit `USIZE_MAX` bound for the
overflow-checked multiplication.
-/

/-- `usize::MAX` on the 64-bit host. -/
def USIZE_MAX : Nat := 2 ^ 64 - 1

/-- Rust `usize::checked_mul`: `none` exactly when the product overflows. -/
def checked_mul (a b : Nat) : Option Nat :=
  if a * b ≤ USIZE_MAX then some (a * b) else none

/-- Rust `usize::checked_div`: `none` exactly when the divisor is zero. -/
def checked_div (a b : Nat) : Option Nat :=
  if b = 0 then none else some (a / b)

/-- `ErrorCode` from `src/lib.rs` (`#[repr(u32)]`, non-exhaustive). -/
inductive ErrorCode
  | Success
  | InvalidArguments
  | NotFound
deriving DecidableEq, Repr

/-- The `u32` discriminant of each `ErrorCode` variant. -/
def ErrorCode.toU32 : ErrorCode → Nat
  | .Success => 0
  | .InvalidArguments => 5
  | .NotFound => 6

/-- `ApiErrorMessage`: none / static text / dynamically built text. -/
inductive ApiErrorMessage
  | none
  | staticMsg (s : String)
  | dynamic (s : String)
deriving DecidableEq, Repr

/-- `ApiErrorMessage::as_str`. -/
def ApiErrorMessage.as_str : ApiErrorMessage → Option String
  | .none => Option.none
  | .staticMsg s => some s
  | .dynamic s => some s

/-- `impl From<&'static str> for ApiErrorMessage`: the empty string maps
to `None`, any other static string to `Static`. -/
def apiErrorMessageFromStr (s : String) : ApiErrorMessage :=
  if s = "" then .none else .staticMsg s

/-- `ApiError` from `src/lib.rs`; the only variant is `InvalidArguments`. -/
inductive ApiError
  | InvalidArguments (msg : ApiErrorMessage)
deriving DecidableEq, Repr

/-- `ApiError::invalid_arguments` at a `&'static str` message. -/
def ApiError.invalid_arguments (s : String) : ApiError :=
  .InvalidArguments (apiErrorMessageFromStr s)

/-- The error value `ApiError::invalid_arguments("")` used by every
bounds-check failure site in the memory accessors. -/
def invalidArgsEmpty : ApiError := ApiError.invalid_arguments ""

/-- `ApiError::code`. -/
def ApiError.code : ApiError → ErrorCode
  | .InvalidArguments _ => .InvalidArguments

/-- The string rendered by `Display for DisplayableApiError`. -/
def ApiError.displayStr : ApiError → String
  | .InvalidArguments msg =>
    match msg.as_str with
    | Option.none => "Invalid arguments"
    | some s => "Invalid arguments: " ++ s

/-- A `std::error::Error` value with its `to_string()` text and an
optional `source()` cause; `leaf` has no cause, `cons` wraps one. -/
inductive ChainError
  | leaf (msg : String)
  | cons (msg : String) (source : ChainError)
deriving DecidableEq, Repr

/-- `error_display_chain` from `src/lib.rs`: the error text, then
`" -> "` and the recursively rendered source chain. -/
def error_display_chain : ChainError → String
  | .leaf m => m
  | .cons m src => m ++ " -> " ++ error_display_chain src

/-- The list of `to_string()` texts along the cause chain, outermost
error first. -/
def ChainError.messages : ChainError → List String
  | .leaf m => [m]
  | .cons m src => m :: src.messages

/-- `ApiError::invalid_arguments_err` applied to a chained error value:
wraps the rendered chain as a `Dynamic` message. -/
def ApiError.invalid_arguments_err_chain (e : ChainError) : ApiError :=
  .InvalidArguments (.dynamic (error_display_chain e))

/-- Modelled from the spec: the spec's own wording of chain rendering —
the messages of the chain concatenated with `" -> "` separators.  Used
only to compare `error_display_chain` against the spec sentence. -/
def renderChainSpec : List String → String
  | [] => ""
  | [m] => m
  | m :: rest => m ++ " -> " ++ renderChainSpec rest

/-- The bounds check of `memory_ptr_mut`: `memory.data().get(ptr .. ptr +
size_of::<T>())` succeeds exactly when `ptr + sz ≤ length`. -/
def memory_ptr_check (sz : Nat) (mem : List Nat) (ptr : Nat) : Except ApiError Unit :=
  if ptr + sz ≤ mem.length then .ok () else .error invalidArgsEmpty

/-- `get_value::<T>` for a POD type of size `sz`, returning the raw bytes
of the referenced value. -/
def get_value (sz : Nat) (mem : List Nat) (ptr : Nat) : Except ApiError (List Nat) :=
  match memory_ptr_check sz mem ptr with
  | .error e => .error e
  | .ok _ => .ok ((mem.drop ptr).take sz)

/-- Overwrite `bytes.length` bytes of `mem` starting at `ptr`. -/
def writeBytes (mem : List Nat) (ptr : Nat) (bytes : List Nat) : List Nat :=
  mem.take ptr ++ bytes ++ mem.drop (ptr + bytes.length)

/-- The 8 little-endian bytes of a `u64` value. -/
def u64LEBytes (v : Nat) : List Nat :=
  [v % 256, v / 256 % 256, v / 256 ^ 2 % 256, v / 256 ^ 3 % 256,
   v / 256 ^ 4 % 256, v / 256 ^ 5 % 256, v / 256 ^ 6 % 256, v / 256 ^ 7 % 256]

/-- `get_value_mut::<FutureHandle>` followed by `*output = res`: the same
bounds check as `memory_ptr_mut`, then an 8-byte store at `ptr`. -/
def write_value_u64 (mem : List Nat) (ptr : Nat) (v : Nat) : Except ApiError (List Nat) :=
  match memory_ptr_check 8 mem ptr with
  | .error e => .error e
  | .ok _ => .ok (writeBytes mem ptr (u64LEBytes v))

/-- `memory_slice::<T>` for a POD element size `sz`: overflow-checked
`len * sz`, `data().get(ptr..)`, `.get(..byteLen)`, then the
`checked_div` element count used by `from_raw_parts`; returns the raw
bytes of the slice. -/
def memory_slice (sz : Nat) (mem : List Nat) (ptr len : Nat) : Except ApiError (List Nat) :=
  match checked_mul len sz with
  | Option.none => .error invalidArgsEmpty
  | some byteLen =>
    if ptr ≤ mem.length then
      if byteLen ≤ mem.length - ptr then
        match checked_div byteLen sz with
        | Option.none => .error invalidArgsEmpty
        | some _count => .ok ((mem.drop ptr).take byteLen)
      else .error invalidArgsEmpty
    else .error invalidArgsEmpty

/-- `std::str::Utf8Error`: index of the first invalid byte and the length
of the invalid sequence (`none` when the input ends in an incomplete
character). -/
structure Utf8Error where
  valid_up_to : Nat
  error_len : Option Nat
deriving DecidableEq, Repr

/-- The `Display` text of `std::str::Utf8Error`; since it has no
`source()`, this is also its `error_display_chain` rendering. -/
def Utf8Error.render : Utf8Error → String
  | ⟨i, some n⟩ =>
    "invalid utf-8 sequence of " ++ toString n ++ " bytes from index " ++ toString i
  | ⟨i, Option.none⟩ => "incomplete utf-8 byte sequence from index " ++ toString i

/-- UTF-8 continuation byte test (`0x80 ..= 0xBF`). -/
def isCont (b : Nat) : Bool := decide (0x80 ≤ b) && decide (b ≤ 0xBF)

/-- Valid ranges of the byte following a 3- or 4-byte leading byte, from
Rust core's UTF-8 validation table. -/
def utf8FirstContOk (b c : Nat) : Bool :=
  if b = 0xE0 then decide (0xA0 ≤ c) && decide (c ≤ 0xBF)
  else if b = 0xED then decide (0x80 ≤ c) && decide (c ≤ 0x9F)
  else if b = 0xF0 then decide (0x90 ≤ c) && decide (c ≤ 0xBF)
  else if b = 0xF4 then decide (0x80 ≤ c) && decide (c ≤ 0x8F)
  else isCont c

/-- The loop of Rust core's `run_utf8_validation`, carrying the absolute
index `i` of the current character start. -/
def utf8ValidateGo (i : Nat) : List Nat → Option Utf8Error
  | [] => Option.none
  | b :: rest =>
    if b < 0x80 then utf8ValidateGo (i + 1) rest
    else if 0xC2 ≤ b ∧ b ≤ 0xDF then
      match rest with
      | [] => some ⟨i, Option.none⟩
      | c1 :: rest2 =>
        if isCont c1 then utf8ValidateGo (i + 2) rest2 else some ⟨i, some 1⟩
    else if 0xE0 ≤ b ∧ b ≤ 0xEF then
      match rest with
      | [] => some ⟨i, Option.none⟩
      | c1 :: rest2 =>
        if utf8FirstContOk b c1 then
          match rest2 with
          | [] => some ⟨i, Option.none⟩
          | c2 :: rest3 =>
            if isCont c2 then utf8ValidateGo (i + 3) rest3 else some ⟨i, some 2⟩
        else some ⟨i, some 1⟩
    else if 0xF0 ≤ b ∧ b ≤ 0xF4 then
      match rest with
      | [] => some ⟨i, Option.none⟩
      | c1 :: rest2 =>
        if utf8FirstContOk b c1 then
          match rest2 with
          | [] => some ⟨i, Option.none⟩
          | c2 :: rest3 =>
            if isCont c2 then
              match rest3 with
              | [] => some ⟨i, Option.none⟩
              | c3 :: rest4 =>
                if isCont c3 then utf8ValidateGo (i + 4) rest4 else some ⟨i, some 3⟩
            else some ⟨i, some 2⟩
        else some ⟨i, some 1⟩
    else some ⟨i, some 1⟩

/-- `std::str::from_utf8` validation outcome on a byte list. -/
def run_utf8_validation (v : List Nat) : Option Utf8Error :=
  utf8ValidateGo 0 v

/-- `memory_string`: `memory_slice::<u8>` then UTF-8 validation; an
invalid encoding becomes `ApiError::invalid_arguments_err(err)`, whose
message is the `Dynamic` rendering of the `Utf8Error` (which has no
`source()`, so the chain is just its own text).  Returns the validated
bytes of the `&str`. -/
def memory_string (mem : List Nat) (ptr len : Nat) : Except ApiError (List Nat) :=
  match memory_slice 1 mem ptr len with
  | .error e => .error e
  | .ok bytes =>
    match run_utf8_validation bytes with
    | Option.none => .ok bytes
    | some uerr => .error (.InvalidArguments (.dynamic uerr.render))

/-- Observable steps of one `start_training_export` invocation: each
string decode (`memory_string`), the struct decode (`get_value`), the
invocation of the host capability (`start_training_shim`) with the typed
arguments it receives, and the output write. -/
inductive Event
  | readUtf8 (ptr len : Nat)
  | readScalar (ptr : Nat)
  | shimCall (hive_url game_name experiment_name config checkpoint : List Nat)
      (hive_port num_remote_w duration : Nat)
  | writeOut (ptr v : Nat)
deriving DecidableEq, Repr

/-- `true` exactly on `Event.readUtf8`. -/
def Event.isReadUtf8 : Event → Bool
  | .readUtf8 _ _ => true
  | _ => false

/-- `true` exactly on `Event.readScalar`. -/
def Event.isReadScalar : Event → Bool
  | .readScalar _ => true
  | _ => false

/-- `true` exactly on `Event.shimCall`. -/
def Event.isShimCall : Event → Bool
  | .shimCall _ _ _ _ _ _ _ _ => true
  | _ => false

/-- `true` exactly on `Event.writeOut`. -/
def Event.isWriteOut : Event → Bool
  | .writeOut _ _ => true
  | _ => false

/-- The host capability `start_training_shim`, abstracted: it receives
the five decoded strings (as byte lists), the three pass-through scalars
and the zero-sized protocol struct, and returns a `FutureHandle` value
or an `ApiError`.  Its body is `todo!()` in the source, so it is a
parameter of the model. -/
def ShimFn :=
  List Nat → Nat → List Nat → List Nat → Nat → List Nat → List Nat → Nat →
    Except ApiError Nat

/-- Result of one `start_training_export` run: the `Result<(), ApiError>`
value, the final guest memory, and the trace of observable steps. -/
structure ExportOutcome where
  result : Except ApiError Unit
  memOut : List Nat
  trace : List Event
deriving Repr

/-- `MLApiHost::start_training_export` from `src/lib.rs`.  Evaluation
order follows Rust: the receiver `Self::get(host_context)?` first
(abstracted as `getHost`, since `MLApiHost::get` is `todo!()`), then the
arguments left to right — `memory_string` for the five string arguments,
`get_value::<ProtocolConfig>` (size 0) for the struct — each with `?`;
then the shim; on success `get_value_mut::<FutureHandle>` (size 8) at
`output_ptr` and the store of the returned handle. -/
def start_training_export (getHost : Except ApiError Unit) (shim : ShimFn)
    (mem : List Nat)
    (hive_url_ptr hive_url_len hive_port game_name_ptr game_name_len
      experiment_name_ptr experiment_name_len num_remote_w config_ptr config_len
      checkpoint_ptr checkpoint_len duration protocol_ptr output_ptr : Nat) :
    ExportOutcome :=
  match getHost with
  | .error e => ⟨.error e, mem, []⟩
  | .ok _ =>
    let t1 := [Event.readUtf8 hive_url_ptr hive_url_len]
    match memory_string mem hive_url_ptr hive_url_len with
    | .error e => ⟨.error e, mem, t1⟩
    | .ok hive_url =>
      let t2 := t1 ++ [Event.readUtf8 game_name_ptr game_name_len]
      match memory_string mem game_name_ptr game_name_len with
      | .error e => ⟨.error e, mem, t2⟩
      | .ok game_name =>
        let t3 := t2 ++ [Event.readUtf8 experiment_name_ptr experiment_name_len]
        match memory_string mem experiment_name_ptr experiment_name_len with
        | .error e => ⟨.error e, mem, t3⟩
        | .ok experiment_name =>
          let t4 := t3 ++ [Event.readUtf8 config_ptr config_len]
          match memory_string mem config_ptr config_len with
          | .error e => ⟨.error e, mem, t4⟩
          | .ok config =>
            let t5 := t4 ++ [Event.readUtf8 checkpoint_ptr checkpoint_len]
            match memory_string mem checkpoint_ptr checkpoint_len with
            | .error e => ⟨.error e, mem, t5⟩
            | .ok checkpoint =>
              let t6 := t5 ++ [Event.readScalar protocol_ptr]
              match get_value 0 mem protocol_ptr with
              | .error e => ⟨.error e, mem, t6⟩
              | .ok _protocol =>
                let t7 := t6 ++ [Event.shimCall hive_url game_name experiment_name
                  config checkpoint hive_port num_remote_w duration]
                match shim hive_url hive_port game_name experiment_name num_remote_w
                    config checkpoint duration with
                | .error e => ⟨.error e, mem, t7⟩
                | .ok res =>
                  match write_value_u64 mem output_ptr res with
                  | .error e => ⟨.error e, mem, t7⟩
                  | .ok mem2 => ⟨.ok (), mem2, t7 ++ [Event.writeOut output_ptr res]⟩

/-- The warning text built by `HostModule::log_call`:
`format!("{} \"{}\" failed: {}", Self::name(), function, err.display())`. -/
def logMsg (moduleName function : String) (err : ApiError) : String :=
  moduleName ++ " \"" ++ function ++ "\" failed: " ++ err.displayStr

/-- `HostModule::log_call`: `Ok` becomes `Success as u32`; an error
becomes its code as `u32`, with one warning log entry unless the code is
`NotFound`.  Returns the `u32` and the emitted warning entries. -/
def log_call (moduleName function : String) (res : Except ApiError Unit) :
    Nat × List String :=
  match res with
  | .ok _ => (ErrorCode.Success.toU32, [])
  | .error err =>
    if err.code = ErrorCode.NotFound then (err.code.toU32, [])
    else (err.code.toU32, [logMsg moduleName function err])

/-- The wasmtime closure registered by `MLApiHost::imports` for
`start_training`: resolve the guest's exported memory and host context
via `get_host_context_from_caller` — a failure there is mapped with
`wasmtime::Trap::new(err.display().to_string())`, i.e. a trap — then run
`start_training_export` and convert its result with
`log_call("start_training", result)`.  `resolvedMemory` is `some mem`
when `caller.get_export("memory")` yields a memory, `none` otherwise.
Returns the `Result<u32, Trap>` (trap modelled as its message string)
and the warning log entries. -/
def start_training_call (resolvedMemory : Option (List Nat)) (moduleName : String)
    (getHost : Except ApiError Unit) (shim : ShimFn)
    (hive_url_ptr hive_url_len hive_port game_name_ptr game_name_len
      experiment_name_ptr experiment_name_len num_remote_w config_ptr config_len
      checkpoint_ptr checkpoint_len duration protocol_ptr output_ptr : Nat) :
    Except String Nat × List String :=
  match resolvedMemory with
  | Option.none => (.error invalidArgsEmpty.displayStr, [])
  | some mem =>
    let out := start_training_export getHost shim mem
      hive_url_ptr hive_url_len hive_port game_name_ptr game_name_len
      experiment_name_ptr experiment_name_len num_remote_w config_ptr config_len
      checkpoint_ptr checkpoint_len duration protocol_ptr output_ptr
    let cl := log_call moduleName "start_training" out.result
    (.ok cl.1, cl.2)

/-- A concrete shim used by closed witness statements: always succeeds
with handle value 1. -/
def shim0 : ShimFn := fun _ _ _ _ _ _ _ _ => .ok 1

/-- `true` exactly on `Except.error`. -/
def exceptIsError {α : Type} (r : Except ApiError α) : Bool :=
  match r with
  | .error _ => true
  | .ok _ => false

/-- `sub` occurs contiguously inside `s` (stated on the character
lists). -/
def containsStr (s sub : String) : Prop :=
  ∃ a b : List Char, s.data = a ++ sub.data ++ b

/-- Every chain has at least its own message, so `messages` is a cons. -/
theorem ChainError.messages_shape (e : ChainError) :
    ∃ a t, e.messages = a :: t := by
  cases e <;> exact ⟨_, _, rfl⟩

/-- Claim C9: for a POD element type of size zero, `memory_slice` fails
with `InvalidArguments` on every input — including fully in-bounds ones —
because the element-count `checked_div` by `size_of(T) = 0` is rejected,
so a zero-sized element type can never be read as a slice. -/
theorem c9_zero_sized_slice_always_rejected (mem : List Nat) (ptr len : Nat) :
    memory_slice 0 mem ptr len = .error invalidArgsEmpty := by
  simp [memory_slice, checked_mul, checked_div]

/-- Claim C10 counterexample: at element size 0 (a zero-sized POD type),
`len = 0` and `ptr = 0` on the empty buffer — so `ptr` is in bounds —
`memory_slice` still fails with `InvalidArguments` instead of returning
an empty slice, contrary to the claim as stated for every `read_slice`
instantiation. -/
theorem c10_cex_zero_sized_inbounds_read_fails :
    (0 : Nat) ≤ ([] : List Nat).length ∧
    memory_slice 0 ([] : List Nat) 0 0 = .error invalidArgsEmpty :=
  ⟨Nat.le_refl 0, rfl⟩

/-- Claim C10 (amended to POD element types of size at least one): for
`len = 0`, `memory_slice` and `memory_string` succeed for every `ptr`
less than or equal to the buffer length — including `ptr` equal to the
length — returning an empty slice or string, and fail with
`InvalidArguments` exactly when `ptr` exceeds the buffer length. -/
theorem c10_zero_len_reads (sz : Nat) (mem : List Nat) (ptr : Nat) (hsz : 1 ≤ sz) :
    (ptr ≤ mem.length →
      memory_slice sz mem ptr 0 = .ok [] ∧ memory_string mem ptr 0 = .ok []) ∧
    (mem.length < ptr →
      memory_slice sz mem ptr 0 = .error invalidArgsEmpty ∧
      memory_string mem ptr 0 = .error invalidArgsEmpty) := by
  have hsz0 : sz ≠ 0 := by omega
  constructor
  · intro hp
    constructor
    · simp [memory_slice, checked_mul, checked_div, hp, hsz0]
    · simp [memory_string, memory_slice, checked_mul, checked_div, hp,
        run_utf8_validation, utf8ValidateGo]
  · intro hlt
    have hp : ¬ ptr ≤ mem.length := by omega
    constructor
    · simp [memory_slice, checked_mul, checked_div, hp]
    · simp [memory_string, memory_slice, checked_mul, checked_div, hp]

/-- Witness for C10's amended theorem at element size 1 on the buffer
`[7]`: `ptr = 1` (equal to the length) succeeds with an empty result,
`ptr = 2` fails with `InvalidArguments`. -/
theorem c10_zero_len_reads_witness :
    (memory_slice 1 [7] 1 0 = .ok [] ∧ memory_string [7] 1 0 = .ok []) ∧
    (memory_slice 1 [7] 2 0 = .error invalidArgsEmpty ∧
      memory_string [7] 2 0 = .error invalidArgsEmpty) :=
  ⟨(c10_zero_len_reads 1 [7] 1 (Nat.le_refl 1)).1 (by decide),
   (c10_zero_len_reads 1 [7] 2 (Nat.le_refl 1)).2 (by decide)⟩

/-- Claim C4: the integer returned to the guest by `log_call` is `0`
(`ErrorCode::Success`) exactly when the underlying `Result` was `Ok`, and
every `ApiError` maps to a nonzero code. -/
theorem c4_code_zero_iff_success (mn fn : String) (res : Except ApiError Unit) :
    ((log_call mn fn res).1 = 0 ↔ res = .ok ()) ∧
    (∀ e : ApiError, 0 < e.code.toU32) := by
  constructor
  · cases res with
    | ok u => cases u; simp [log_call, ErrorCode.toU32]
    | error e =>
      cases e with
      | InvalidArguments m =>
        simp [log_call, ApiError.code, ErrorCode.toU32]
  · intro e; cases e; simp [ApiError.code, ErrorCode.toU32]

/-- Claim C8: the rendered message of a chained error concatenates the
error's own message with each successive cause's message separated by
`" -> "` (the spec-side rendering `renderChainSpec` of the message list);
the rendering is separate from the integer code, which for the wrapping
`ApiError` is always `InvalidArguments`. -/
theorem c8_display_chain (e : ChainError) :
    error_display_chain e = renderChainSpec e.messages ∧
    (ApiError.invalid_arguments_err_chain e).code = ErrorCode.InvalidArguments ∧
    (ApiError.invalid_arguments_err_chain e).displayStr =
      "Invalid arguments: " ++ error_display_chain e := by
  refine ⟨?_, rfl, rfl⟩
  induction e with
  | leaf m => rfl
  | cons m src ih =>
    obtain ⟨a, t, hm⟩ := ChainError.messages_shape src
    calc error_display_chain (ChainError.cons m src)
        = m ++ " -> " ++ error_display_chain src := rfl
      _ = m ++ " -> " ++ renderChainSpec src.messages := by rw [ih]
      _ = m ++ " -> " ++ renderChainSpec (a :: t) := by rw [hm]
      _ = renderChainSpec (m :: a :: t) := rfl
      _ = renderChainSpec (ChainError.cons m src).messages := by
          rw [show (ChainError.cons m src).messages = m :: src.messages from rfl, hm]

/-- Claim C5: converting an error outcome to the boundary integer emits
zero warning entries when the code is `NotFound` and exactly one entry
otherwise; that entry contains the host module name, the operation name
and the full rendered message, and is part of the returned outcome. -/
theorem c5_selective_logging (mn fn : String) (err : ApiError) :
    (log_call mn fn (.error err)).2 =
      (if err.code = ErrorCode.NotFound then [] else [logMsg mn fn err]) ∧
    containsStr (logMsg mn fn err) mn ∧
    containsStr (logMsg mn fn err) fn ∧
    containsStr (logMsg mn fn err) err.displayStr ∧
    (log_call mn fn (.error err)).2.length ≤ 1 := by
  refine ⟨?_, ?_, ?_, ?_, ?_⟩
  · simp only [log_call]
    split <;> rfl
  · exact ⟨[], (" \"" ++ fn ++ "\" failed: " ++ err.displayStr).data,
      by simp [logMsg, String.data_append, List.append_assoc]⟩
  · exact ⟨(mn ++ " \"").data, ("\" failed: " ++ err.displayStr).data,
      by simp [logMsg, String.data_append, List.append_assoc]⟩
  · exact ⟨(mn ++ " \"" ++ fn ++ "\" failed: ").data, [],
      by simp [logMsg, String.data_append, List.append_assoc]⟩
  · simp only [log_call]
    split <;> simp

/-- Claim C1 counterexample: at a call where the guest's exported memory
fails to resolve (`resolvedMemory = none`), the registered
`start_training` closure returns `Err(Trap)` — carrying the rendered
`ApiError` text — instead of an ordinary `u32` code, so this marshaling-
time validation failure IS raised as a runtime trap. -/
theorem c1_cex_memory_resolution_failure_traps :
    start_training_call Option.none "MLApiHost" (.ok ()) shim0
        0 0 0 0 0 0 0 0 0 0 0 0 0 0 0 =
      (Except.error "Invalid arguments", []) := rfl

/-- Claim C1 (amended: once the guest's exported memory and host context
resolve, no runtime call failure is a trap): for every resolved memory,
host-context outcome, shim behaviour and argument tuple, the registered
`start_training` closure returns `Ok(code)` with `code` an `ErrorCode`
discriminant (`Success` or `InvalidArguments`) — every marshaling-time
validation failure inside the export is converted into an `ErrorCode`
and returned as an ordinary `u32`. -/
theorem c1_no_trap_once_memory_resolves (mn : String)
    (getHost : Except ApiError Unit) (shim : ShimFn) (mem : List Nat)
    (hive_url_ptr hive_url_len hive_port game_name_ptr game_name_len
      experiment_name_ptr experiment_name_len num_remote_w config_ptr config_len
      checkpoint_ptr checkpoint_len duration protocol_ptr output_ptr : Nat) :
    ∃ code logs,
      start_training_call (some mem) mn getHost shim
        hive_url_ptr hive_url_len hive_port game_name_ptr game_name_len
        experiment_name_ptr experiment_name_len num_remote_w config_ptr config_len
        checkpoint_ptr checkpoint_len duration protocol_ptr output_ptr =
        (Except.ok code, logs) ∧
      (code = ErrorCode.Success.toU32 ∨ code = ErrorCode.InvalidArguments.toU32) := by
  refine ⟨_, _, rfl, ?_⟩
  cases h : (start_training_export getHost shim mem
      hive_url_ptr hive_url_len hive_port game_name_ptr game_name_len
      experiment_name_ptr experiment_name_len num_remote_w config_ptr config_len
      checkpoint_ptr checkpoint_len duration protocol_ptr output_ptr).result with
  | ok u => left; simp [log_call, h, ErrorCode.toU32]
  | error e =>
    right
    cases e with
    | InvalidArguments m =>
      simp [log_call, h, ApiError.code, ErrorCode.toU32]

/-- Claim C6: for every in-bounds `(ptr, len)` byte range (with `len` in
the `u32` domain) whose bytes are not valid UTF-8, `memory_string` fails
with an `InvalidArguments` error embedding the decoder's diagnostic
message as its `Dynamic` text, returning that error as an ordinary value
rather than aborting. -/
theorem c6_invalid_utf8_rejected (mem : List Nat) (ptr len : Nat) (uerr : Utf8Error)
    (hlen : len < 2 ^ 32)
    (hin : ptr + len ≤ mem.length)
    (hval : run_utf8_validation ((mem.drop ptr).take len) = some uerr) :
    memory_string mem ptr len =
      .error (ApiError.InvalidArguments (ApiErrorMessage.dynamic uerr.render)) := by
  have hmax : len ≤ USIZE_MAX := by
    have h64 : 2 ^ 32 ≤ USIZE_MAX := by norm_num [USIZE_MAX]
    omega
  have hp : ptr ≤ mem.length := by omega
  have hrem : len ≤ mem.length - ptr := by omega
  have hslice : memory_slice 1 mem ptr len = .ok ((mem.drop ptr).take len) := by
    simp [memory_slice, checked_mul, checked_div, hmax, hp, hrem]
  simp [memory_string, hslice, hval]

/-- Witness for C6: the single byte `0xFF` at an in-bounds range is not
valid UTF-8; `memory_string` returns `InvalidArguments` with the
decoder's diagnostic for a 1-byte invalid sequence at index 0. -/
theorem c6_invalid_utf8_rejected_witness :
    memory_string [255] 0 1 =
      .error (ApiError.InvalidArguments (ApiErrorMessage.dynamic
        (Utf8Error.render ⟨0, some 1⟩))) ∧
    Utf8Error.render ⟨0, some 1⟩ = "invalid utf-8 sequence of 1 bytes from index 0" :=
  ⟨c6_invalid_utf8_rejected [255] 0 1 ⟨0, some 1⟩ (by norm_num) (by decide) (by decide),
   rfl⟩

/-- Claim C3: requests whose byte range exceeds the current buffer length
— and counts whose byte length `count * size_of(T)` overflows `usize` —
make `memory_slice`, `memory_string` and `get_value` fail with
`InvalidArguments`; and any successful `memory_slice` read returns
exactly the in-bounds bytes `(mem.drop ptr).take (len * sz)`, never
reaching past the buffer. -/
theorem c3_oob_and_overflow_rejected (sz : Nat) (mem : List Nat) (ptr len : Nat) :
    (USIZE_MAX < len * sz → memory_slice sz mem ptr len = .error invalidArgsEmpty) ∧
    (len * sz ≤ USIZE_MAX → mem.length < ptr + len * sz →
      memory_slice sz mem ptr len = .error invalidArgsEmpty) ∧
    (mem.length < ptr + len → memory_string mem ptr len = .error invalidArgsEmpty) ∧
    (mem.length < ptr + sz → get_value sz mem ptr = .error invalidArgsEmpty) ∧
    (∀ bytes, memory_slice sz mem ptr len = .ok bytes →
      bytes = (mem.drop ptr).take (len * sz) ∧ ptr + bytes.length ≤ mem.length) := by
  have hover : ∀ l s : Nat, USIZE_MAX < l * s →
      memory_slice s mem ptr l = .error invalidArgsEmpty := by
    intro l s h
    have : ¬ l * s ≤ USIZE_MAX := by omega
    simp [memory_slice, checked_mul, this]
  have hoob : ∀ l s : Nat, l * s ≤ USIZE_MAX → mem.length < ptr + l * s →
      memory_slice s mem ptr l = .error invalidArgsEmpty := by
    intro l s hle h
    by_cases hp : ptr ≤ mem.length
    · have hrem : ¬ l * s ≤ mem.length - ptr := by omega
      simp [memory_slice, checked_mul, checked_div, hle, hp, hrem]
    · simp [memory_slice, checked_mul, checked_div, hle, hp]
  refine ⟨hover len sz, hoob len sz, ?_, ?_, ?_⟩
  · intro h
    by_cases hle : len * 1 ≤ USIZE_MAX
    · have := hoob len 1 hle (by omega)
      simp [memory_string, this]
    · have := hover len 1 (by omega)
      simp [memory_string, this]
  · intro h
    have : ¬ ptr + sz ≤ mem.length := by omega
    simp [get_value, memory_ptr_check, this]
  · intro bytes h
    simp only [memory_slice, checked_mul, checked_div] at h
    by_cases hle : len * sz ≤ USIZE_MAX
    · simp only [if_pos hle] at h
      by_cases hp : ptr ≤ mem.length
      · simp only [if_pos hp] at h
        by_cases hrem : len * sz ≤ mem.length - ptr
        · simp only [if_pos hrem] at h
          by_cases hsz : sz = 0
          · simp [hsz] at h
          · simp only [if_neg hsz] at h
            have hb : bytes = (mem.drop ptr).take (len * sz) := by
              exact (Except.ok.injEq _ _).mp h.symm
            refine ⟨hb, ?_⟩
            have : bytes.length = min (len * sz) (mem.length - ptr) := by
              rw [hb]; simp [List.length_take, List.length_drop]
            omega
        · simp [if_neg hrem] at h
      · simp [if_neg hp] at h
    · simp [if_neg hle] at h

/-- Witness for C3: an overflowing count (`2^64` elements of size 1), an
out-of-bounds slice, string and scalar read on the 1-byte buffer `[7]`
all fail with `InvalidArguments`; the in-bounds zero-length slice read
returns exactly the in-bounds bytes. -/
theorem c3_oob_and_overflow_rejected_witness :
    memory_slice 1 [7] 0 (2 ^ 64) = .error invalidArgsEmpty ∧
    memory_slice 1 [7] 0 2 = .error invalidArgsEmpty ∧
    memory_string [7] 0 2 = .error invalidArgsEmpty ∧
    get_value 4 [7] 0 = .error invalidArgsEmpty ∧
    (([] : List Nat) = (([7] : List Nat).drop 0).take (0 * 1) ∧
      0 + ([] : List Nat).length ≤ ([7] : List Nat).length) :=
  ⟨(c3_oob_and_overflow_rejected 1 [7] 0 (2 ^ 64)).1 (by norm_num [USIZE_MAX]),
   (c3_oob_and_overflow_rejected 1 [7] 0 2).2.1 (by norm_num [USIZE_MAX]) (by norm_num),
   (c3_oob_and_overflow_rejected 1 [7] 0 2).2.2.1 (by norm_num),
   (c3_oob_and_overflow_rejected 4 [7] 0 0).2.2.2.1 (by norm_num),
   (c3_oob_and_overflow_rejected 1 [7] 0 0).2.2.2.2 [] rfl⟩

/-- Claim C2 counterexample: a concrete fully successful
`start_training_export` run performs five `read_utf8` decodes, not four
— the marshaling routine decodes five string arguments (hive url, game
name, experiment name, config, checkpoint). -/
theorem c2_cex_five_strings_not_four :
    (start_training_export (.ok ()) shim0 [0, 0, 0, 0, 0, 0, 0, 0]
      0 0 0 0 0 0 0 0 0 0 0 0 0 0 0).result = .ok () ∧
    (start_training_export (.ok ()) shim0 [0, 0, 0, 0, 0, 0, 0, 0]
      0 0 0 0 0 0 0 0 0 0 0 0 0 0 0).trace.countP Event.isReadUtf8 = 5 ∧
    ¬ ((start_training_export (.ok ()) shim0 [0, 0, 0, 0, 0, 0, 0, 0]
      0 0 0 0 0 0 0 0 0 0 0 0 0 0 0).trace.countP Event.isReadUtf8 = 4) :=
  ⟨rfl, rfl, by decide⟩

/-- Claim C2 (amended: five strings, not four): whenever the five string
decodes, the struct read, the shim and the output bounds check succeed,
`start_training_export` performs exactly five `read_utf8` decodes, one
`read_scalar` struct decode, passes the three scalar arguments through
unchanged to the host capability, and writes the returned POD
`FutureHandle` at `output_ptr` — nothing else. -/
theorem c2_marshaling_shape (shim : ShimFn) (mem : List Nat)
    (hive_url_ptr hive_url_len hive_port game_name_ptr game_name_len
      experiment_name_ptr experiment_name_len num_remote_w config_ptr config_len
      checkpoint_ptr checkpoint_len duration protocol_ptr output_ptr : Nat)
    (hive_url game_name experiment_name config checkpoint : List Nat) (res : Nat)
    (h1 : memory_string mem hive_url_ptr hive_url_len = .ok hive_url)
    (h2 : memory_string mem game_name_ptr game_name_len = .ok game_name)
    (h3 : memory_string mem experiment_name_ptr experiment_name_len = .ok experiment_name)
    (h4 : memory_string mem config_ptr config_len = .ok config)
    (h5 : memory_string mem checkpoint_ptr checkpoint_len = .ok checkpoint)
    (h6 : get_value 0 mem protocol_ptr = .ok [])
    (h7 : shim hive_url hive_port game_name experiment_name num_remote_w config
      checkpoint duration = .ok res)
    (h8 : output_ptr + 8 ≤ mem.length) :
    start_training_export (.ok ()) shim mem
      hive_url_ptr hive_url_len hive_port game_name_ptr game_name_len
      experiment_name_ptr experiment_name_len num_remote_w config_ptr config_len
      checkpoint_ptr checkpoint_len duration protocol_ptr output_ptr =
    ⟨.ok (), writeBytes mem output_ptr (u64LEBytes res),
      [.readUtf8 hive_url_ptr hive_url_len, .readUtf8 game_name_ptr game_name_len,
       .readUtf8 experiment_name_ptr experiment_name_len,
       .readUtf8 config_ptr config_len, .readUtf8 checkpoint_ptr checkpoint_len,
       .readScalar protocol_ptr,
       .shimCall hive_url game_name experiment_name config checkpoint
         hive_port num_remote_w duration,
       .writeOut output_ptr res]⟩ := by
  simp only [start_training_export, h1, h2, h3, h4, h5, h6, h7]
  simp [write_value_u64, memory_ptr_check, h8]

/-- Witness for C2's amended theorem: the concrete 8-byte zero buffer
with all pointers and lengths zero decodes five empty strings, the
zero-sized struct, invokes the shim with the scalars unchanged, and
writes the returned handle `1` at `output_ptr = 0`. -/
theorem c2_marshaling_shape_witness :
    start_training_export (.ok ()) shim0 [0, 0, 0, 0, 0, 0, 0, 0]
      0 0 0 0 0 0 0 0 0 0 0 0 0 0 0 =
    ⟨.ok (), writeBytes [0, 0, 0, 0, 0, 0, 0, 0] 0 (u64LEBytes 1),
      [.readUtf8 0 0, .readUtf8 0 0, .readUtf8 0 0, .readUtf8 0 0, .readUtf8 0 0,
       .readScalar 0, .shimCall [] [] [] [] [] 0 0 0, .writeOut 0 1]⟩ :=
  c2_marshaling_shape shim0 [0, 0, 0, 0, 0, 0, 0, 0]
    0 0 0 0 0 0 0 0 0 0 0 0 0 0 0 [] [] [] [] [] 1
    rfl rfl rfl rfl rfl rfl rfl (by norm_num)

/-- Claim C7: when decoding any `start_training` argument fails, the
export leaves guest memory unchanged, never invokes the host capability
and never writes the output, and the registered closure returns the
`InvalidArguments` code as an ordinary value; moreover memory is
unchanged on every error path. -/
theorem c7_decode_failure_not_invoked_no_write (mn : String)
    (getHost : Except ApiError Unit) (shim : ShimFn) (mem : List Nat)
    (hive_url_ptr hive_url_len hive_port game_name_ptr game_name_len
      experiment_name_ptr experiment_name_len num_remote_w config_ptr config_len
      checkpoint_ptr checkpoint_len duration protocol_ptr output_ptr : Nat) :
    ((exceptIsError (memory_string mem hive_url_ptr hive_url_len) = true ∨
      exceptIsError (memory_string mem game_name_ptr game_name_len) = true ∨
      exceptIsError (memory_string mem experiment_name_ptr experiment_name_len) = true ∨
      exceptIsError (memory_string mem config_ptr config_len) = true ∨
      exceptIsError (memory_string mem checkpoint_ptr checkpoint_len) = true ∨
      exceptIsError (get_value 0 mem protocol_ptr) = true) →
      (start_training_export getHost shim mem
        hive_url_ptr hive_url_len hive_port game_name_ptr game_name_len
        experiment_name_ptr experiment_name_len num_remote_w config_ptr config_len
        checkpoint_ptr checkpoint_len duration protocol_ptr output_ptr).memOut = mem ∧
      (start_training_export getHost shim mem
        hive_url_ptr hive_url_len hive_port game_name_ptr game_name_len
        experiment_name_ptr experiment_name_len num_remote_w config_ptr config_len
        checkpoint_ptr checkpoint_len duration protocol_ptr output_ptr).trace.all
          (fun ev => !ev.isShimCall && !ev.isWriteOut) = true ∧
      (start_training_call (some mem) mn getHost shim
        hive_url_ptr hive_url_len hive_port game_name_ptr game_name_len
        experiment_name_ptr experiment_name_len num_remote_w config_ptr config_len
        checkpoint_ptr checkpoint_len duration protocol_ptr output_ptr).1 =
          Except.ok ErrorCode.InvalidArguments.toU32) ∧
    (∀ e, (start_training_export getHost shim mem
        hive_url_ptr hive_url_len hive_port game_name_ptr game_name_len
        experiment_name_ptr experiment_name_len num_remote_w config_ptr config_len
        checkpoint_ptr checkpoint_len duration protocol_ptr output_ptr).result =
          .error e →
      (start_training_export getHost shim mem
        hive_url_ptr hive_url_len hive_port game_name_ptr game_name_len
        experiment_name_ptr experiment_name_len num_remote_w config_ptr config_len
        checkpoint_ptr checkpoint_len duration protocol_ptr output_ptr).memOut = mem) := by
  constructor
  · intro hd
    cases hg : getHost with
    | error e2 =>
      cases e2 with
      | InvalidArguments m =>
        refine ⟨?_, ?_, ?_⟩ <;>
          simp [start_training_export, start_training_call, log_call, hg,
            ApiError.code, ErrorCode.toU32, Event.isShimCall, Event.isWriteOut]
    | ok u =>
      cases u
      cases hb1 : memory_string mem hive_url_ptr hive_url_len with
      | error e2 =>
        cases e2 with
        | InvalidArguments m =>
          refine ⟨?_, ?_, ?_⟩ <;>
            simp [start_training_export, start_training_call, log_call, hg, hb1,
              ApiError.code, ErrorCode.toU32, Event.isShimCall, Event.isWriteOut]
      | ok hive_url =>
        cases hb2 : memory_string mem game_name_ptr game_name_len with
        | error e2 =>
          cases e2 with
          | InvalidArguments m =>
            refine ⟨?_, ?_, ?_⟩ <;>
              simp [start_training_export, start_training_call, log_call, hg, hb1, hb2,
                ApiError.code, ErrorCode.toU32, Event.isShimCall, Event.isWriteOut]
        | ok game_name =>
          cases hb3 : memory_string mem experiment_name_ptr experiment_name_len with
          | error e2 =>
            cases e2 with
            | InvalidArguments m =>
              refine ⟨?_, ?_, ?_⟩ <;>
                simp [start_training_export, start_training_call, log_call, hg, hb1,
                  hb2, hb3, ApiError.code, ErrorCode.toU32, Event.isShimCall,
                  Event.isWriteOut]
          | ok experiment_name =>
            cases hb4 : memory_string mem config_ptr config_len with
            | error e2 =>
              cases e2 with
              | InvalidArguments m =>
                refine ⟨?_, ?_, ?_⟩ <;>
                  simp [start_training_export, start_training_call, log_call, hg, hb1,
                    hb2, hb3, hb4, ApiError.code, ErrorCode.toU32, Event.isShimCall,
                    Event.isWriteOut]
            | ok config =>
              cases hb5 : memory_string mem checkpoint_ptr checkpoint_len with
              | error e2 =>
                cases e2 with
                | InvalidArguments m =>
                  refine ⟨?_, ?_, ?_⟩ <;>
                    simp [start_training_export, start_training_call, log_call, hg,
                      hb1, hb2, hb3, hb4, hb5, ApiError.code, ErrorCode.toU32,
                      Event.isShimCall, Event.isWriteOut]
              | ok checkpoint =>
                cases hb6 : get_value 0 mem protocol_ptr with
                | error e2 =>
                  cases e2 with
                  | InvalidArguments m =>
                    refine ⟨?_, ?_, ?_⟩ <;>
                      simp [start_training_export, start_training_call, log_call, hg,
                        hb1, hb2, hb3, hb4, hb5, hb6, ApiError.code, ErrorCode.toU32,
                        Event.isShimCall, Event.isWriteOut]
                | ok protv =>
                  exfalso
                  simp [exceptIsError, hb1, hb2, hb3, hb4, hb5, hb6] at hd
  · intro e h
    cases hg : getHost with
    | error e2 => simp [start_training_export, hg]
    | ok u =>
      cases u
      cases hb1 : memory_string mem hive_url_ptr hive_url_len with
      | error e2 => simp [start_training_export, hg, hb1]
      | ok hive_url =>
        cases hb2 : memory_string mem game_name_ptr game_name_len with
        | error e2 => simp [start_training_export, hg, hb1, hb2]
        | ok game_name =>
          cases hb3 : memory_string mem experiment_name_ptr experiment_name_len with
          | error e2 => simp [start_training_export, hg, hb1, hb2, hb3]
          | ok experiment_name =>
            cases hb4 : memory_string mem config_ptr config_len with
            | error e2 => simp [start_training_export, hg, hb1, hb2, hb3, hb4]
            | ok config =>
              cases hb5 : memory_string mem checkpoint_ptr checkpoint_len with
              | error e2 => simp [start_training_export, hg, hb1, hb2, hb3, hb4, hb5]
              | ok checkpoint =>
                cases hb6 : get_value 0 mem protocol_ptr with
                | error e2 =>
                  simp [start_training_export, hg, hb1, hb2, hb3, hb4, hb5, hb6]
                | ok protv =>
                  cases hs : shim hive_url hive_port game_name experiment_name
                      num_remote_w config checkpoint duration with
                  | error e2 =>
                    simp [start_training_export, hg, hb1, hb2, hb3, hb4, hb5, hb6, hs]
                  | ok res =>
                    cases hw : write_value_u64 mem output_ptr res with
                    | error e2 =>
                      simp [start_training_export, hg, hb1, hb2, hb3, hb4, hb5, hb6,
                        hs, hw]
                    | ok mem2 =>
                      exfalso
                      simp [start_training_export, hg, hb1, hb2, hb3, hb4, hb5, hb6,
                        hs, hw] at h

/-- Witness for C7: on the empty buffer with `hive_url_len = 1` the url
decode fails; the export leaves memory unchanged, performs no shim call
or output write, and the closure returns the `InvalidArguments` code;
the generic no-write-on-error part applied at the same input. -/
theorem c7_decode_failure_not_invoked_no_write_witness :
    ((start_training_export (.ok ()) shim0 []
        0 1 0 0 0 0 0 0 0 0 0 0 0 0 0).memOut = [] ∧
      (start_training_export (.ok ()) shim0 []
        0 1 0 0 0 0 0 0 0 0 0 0 0 0 0).trace.all
          (fun ev => !ev.isShimCall && !ev.isWriteOut) = true ∧
      (start_training_call (some []) "MLApiHost" (.ok ()) shim0
        0 1 0 0 0 0 0 0 0 0 0 0 0 0 0).1 =
          Except.ok ErrorCode.InvalidArguments.toU32) ∧
    (start_training_export (.ok ()) shim0 []
      0 1 0 0 0 0 0 0 0 0 0 0 0 0 0).memOut = [] :=
  ⟨(c7_decode_failure_not_invoked_no_write "MLApiHost" (.ok ()) shim0 []
      0 1 0 0 0 0 0 0 0 0 0 0 0 0 0).1 (Or.inl rfl),
   (c7_decode_failure_not_invoked_no_write "MLApiHost" (.ok ()) shim0 []
      0 1 0 0 0 0 0 0 0 0 0 0 0 0 0).2 invalidArgsEmpty rfl⟩
